import Mathlib

/-!
Shallow embedding of the measurement-acquisition core of the repository
(the function acquire and its helper getNumber in
src/software/evaluation/show.py), together with the semantics of the
bounded history buffers (collections.deque with maxlen=600) and of the
nested retry loops around the serial port.

Reals are modelled by the rationals; every quantity the program computes
from the protocol payloads is an exact decimal fraction, so no rounding
behaviour is relevant to the claims considered here.
-/

namespace Loeti

/-- Value of a list of decimal digit characters read as a base-10 natural
number, e.g. "02050" evaluates to 2050. -/
def digitsToNat (s : List Char) : ℕ :=
  s.foldl (fun acc c => 10 * acc + (c.toNat - '0'.toNat)) 0

/-- Core of Python's float() on an unsigned decimal literal: a run of
digits, optionally followed by a point and further digits, with at least
one digit overall.  Returns none where float() raises ValueError.  (The
model covers plain decimal notation, the only form the protocol payloads
and the claims exercise; exponent notation, inf/nan, surrounding
whitespace and underscores are out of scope.) -/
def decimalCore (s : List Char) : Option ℚ :=
  let intPart := s.takeWhile Char.isDigit
  let rest := s.dropWhile Char.isDigit
  match rest with
  | [] => if intPart = [] then none else some (digitsToNat intPart : ℚ)
  | c :: frac =>
      if c = '.' ∧ frac.all Char.isDigit = true ∧ ¬(intPart = [] ∧ frac = []) then
        some ((digitsToNat intPart : ℚ) + (digitsToNat frac : ℚ) / 10 ^ frac.length)
      else none

/-- Python float() on a decimal literal with an optional leading sign. -/
def pyFloat (s : List Char) : Option ℚ :=
  match s with
  | [] => none
  | c :: rest =>
      if c = '+' then decimalCore rest
      else if c = '-' then (decimalCore rest).map (fun q => -q)
      else decimalCore s

/-- Python slice raw[-5:]: the last five characters of raw (all of raw
when it is shorter than five characters). -/
def takeLast5 (s : List Char) : List Char :=
  s.drop (s.length - 5)

/-- getNumber(raw, factor) from show.py: float(raw[-5:]) / factor.
none models the ValueError raised by float() on a non-numeric slice. -/
def getNumber (raw : List Char) (factor : ℚ) : Option ℚ :=
  (pyFloat (takeLast5 raw)).map (fun q => q / factor)

/-- append of collections.deque(maxlen=m): the new element is added on
the right and, if the deque is full, enough elements (here at most one)
are discarded from the left so that the length never exceeds m. -/
def dequeAppend (m : ℕ) (xs : List α) (x : α) : List α :=
  (xs ++ [x]).drop (xs.length + 1 - m)

/-- The three parallel history deques of acquire (each created with
maxlen=600): times, temperatures, powers. -/
structure Buffers where
  times : List ℚ
  temperatures : List ℚ
  powers : List ℚ
deriving DecidableEq

/-- The empty buffers acquire starts with. -/
def emptyBuffers : Buffers := ⟨[], [], []⟩

/-- One execution of the body of the inner read loop of acquire after
s.readline().decode("utf-8") returned the string line (terminator
included), at elapsed time curTime = time.time() - start:

  res = res[:-1]
  temperature = getNumber(res[:5], 100)
  power = getNumber(res[5:], 100)
  if power > 100: power = 0
  times.append(curTime); temperatures.append(temperature); powers.append(power)

none models the uncaught ValueError from float(): the statements above
are outside every try block, so the exception propagates out of acquire. -/
def processLine (b : Buffers) (curTime : ℚ) (line : List Char) : Option Buffers :=
  let res := line.dropLast
  match getNumber (res.take 5) 100 with
  | none => none
  | some temperature =>
      match getNumber (res.drop 5) 100 with
      | none => none
      | some p =>
          let power := if p > 100 then (0 : ℚ) else p
          some { times := dequeAppend 600 b.times curTime,
                 temperatures := dequeAppend 600 b.temperatures temperature,
                 powers := dequeAppend 600 b.powers power }

/-- Interactions of acquire with the outside world, with wall-clock
times made explicit: the outcome of a serial.Serial('COM5', 115200) call
(openFail when it raises, openOk with the value of time.time() right
after success) and the outcome of an s.readline().decode("utf-8") call
(readFail when it raises, readOk with the current time.time() and the
returned line). -/
inductive Event
  | openFail
  | openOk (now : ℚ)
  | readFail
  | readOk (now : ℚ) (line : List Char)
deriving DecidableEq

/-- Control position of acquire: connecting is the top of the outer
while-loop (about to attempt serial.Serial); streaming start is the
inner read loop with time origin start (the value time.time() had when
the port was opened); crashed is the state after an exception has
propagated out of acquire and ended the acquisition thread. -/
inductive Phase
  | connecting
  | streaming (start : ℚ)
  | crashed
deriving DecidableEq

/-- Whole state of the acquisition loop.  epoch is a ghost counter of
successful open calls: the code keeps no such variable, but the spec's
Connection Epoch counts exactly the successful opens, so the model
tracks them explicitly. -/
structure LoopState where
  phase : Phase
  epoch : ℕ
  bufs : Buffers
deriving DecidableEq

/-- State at the top of acquire: buffers empty, no port opened yet. -/
def initState : LoopState := ⟨Phase.connecting, 0, emptyBuffers⟩

/-- One observable step of acquire.  Faithful to the control flow of
show.py:
* in connecting, an open failure hits the bare except of the outer loop,
  whose continue re-enters the outer loop (retry the open); an open
  success runs start = time.time() and enters the inner loop;
* in streaming, a readline failure hits the bare except of the INNER
  loop, whose continue re-enters the inner read loop on the same
  connection — serial.Serial is never reached again, so the time origin
  and the epoch are untouched; a successful readline runs the decode
  body, and a ValueError there propagates out of acquire (crashed);
* crashed is absorbing: the acquisition thread is dead;
* events that have no call site in a phase (open events while streaming,
  read events while connecting, since the code only calls serial.Serial
  from the outer loop and readline from the inner loop) cannot occur and
  leave the state unchanged. -/
def step (st : LoopState) (e : Event) : LoopState :=
  match st.phase, e with
  | Phase.connecting, Event.openFail => st
  | Phase.connecting, Event.openOk now =>
      { st with phase := Phase.streaming now, epoch := st.epoch + 1 }
  | Phase.connecting, Event.readFail => st
  | Phase.connecting, Event.readOk _ _ => st
  | Phase.streaming _, Event.openFail => st
  | Phase.streaming _, Event.openOk _ => st
  | Phase.streaming _, Event.readFail => st
  | Phase.streaming start, Event.readOk now line =>
      match processLine st.bufs (now - start) line with
      | some b => { st with bufs := b }
      | none => { st with phase := Phase.crashed }
  | Phase.crashed, _ => st

/-- The acquisition loop run over a whole sequence of events. -/
def run (es : List Event) : LoopState :=
  es.foldl step initState

/-- A complete decoded sample, all three fields produced by one
iteration of the read loop. -/
structure Sample where
  time : ℚ
  temperature : ℚ
  power : ℚ

/-- The three buffers are the componentwise projections of one list of
complete samples: every entry of every buffer stems from a single
decoded sample, and the buffers are in lockstep. -/
def isMapped (b : Buffers) (hist : List Sample) : Prop :=
  b.times = hist.map Sample.time ∧
  b.temperatures = hist.map Sample.temperature ∧
  b.powers = hist.map Sample.power

/-- Sample-level effect of one event on the pushed-sample history: only a
successful readline in the streaming phase whose line decodes on both
fields pushes anything, namely the one sample packaging the elapsed
time, the decoded temperature and the clamped decoded power of that
single line; every other event pushes nothing.  This mirrors exactly the
decode body of processLine, so entry i of this history is, by
construction, the complete sample produced by the i-th surviving push. -/
def histUpd (st : LoopState) (e : Event) (hist : List Sample) : List Sample :=
  match st.phase, e with
  | Phase.streaming start, Event.readOk now line =>
      match getNumber (line.dropLast.take 5) 100 with
      | none => hist
      | some temperature =>
          match getNumber (line.dropLast.drop 5) 100 with
          | none => hist
          | some p =>
              dequeAppend 600 hist ⟨now - start, temperature, if p > 100 then 0 else p⟩
  | _, _ => hist

/-- The pushed-sample history accumulated along a trace, starting from a
given loop state and an already-accumulated history. -/
def histFrom : LoopState → List Event → List Sample → List Sample
  | _, [], hist => hist
  | st, e :: es, hist => histFrom (step st e) es (histUpd st e hist)

/-- The pushed-sample history of a whole run: the list of complete
samples actually pushed (clamped, in push order, oldest evicted at
capacity 600), built from the trace alone. -/
def histOf (es : List Event) : List Sample :=
  histFrom initState es []

theorem dequeAppend_length (m : ℕ) (xs : List α) (x : α) :
    (dequeAppend m xs x).length = min (xs.length + 1) m := by
  simp [dequeAppend]
  omega

theorem dequeAppend_map (f : α → β) (m : ℕ) (xs : List α) (x : α) :
    (dequeAppend m xs x).map f = dequeAppend m (xs.map f) (f x) := by
  simp [dequeAppend, List.map_drop]

theorem foldl_dequeAppend (m : ℕ) (ys : List α) :
    ∀ s : List α, s.length ≤ m →
      List.foldl (dequeAppend m) s ys = (s ++ ys).drop (s.length + ys.length - m) := by
  induction ys with
  | nil =>
      intro s h
      simp [Nat.sub_eq_zero_of_le h]
  | cons y ys ih =>
      intro s h
      have hlen : (dequeAppend m s y).length = min (s.length + 1) m :=
        dequeAppend_length m s y
      rw [List.foldl_cons, ih (dequeAppend m s y) (by omega)]
      show (dequeAppend m s y ++ ys).drop _ = _
      rw [hlen]
      rw [show dequeAppend m s y = (s ++ [y]).drop (s.length + 1 - m) from rfl]
      rw [← List.drop_append_of_le_length (by simp)]
      rw [List.drop_drop]
      simp only [List.length_cons]
      congr 1
      · omega
      · simp

theorem decimalCore_digits (s : List Char) (h1 : s ≠ [])
    (h2 : s.all Char.isDigit = true) :
    decimalCore s = some (digitsToNat s : ℚ) := by
  have hall : ∀ x ∈ s, Char.isDigit x := by simpa using h2
  have htake : s.takeWhile Char.isDigit = s := List.takeWhile_eq_self_iff.mpr hall
  have hdrop : s.dropWhile Char.isDigit = [] := List.dropWhile_eq_nil_iff.mpr hall
  simp [decimalCore, htake, hdrop, h1]

theorem pyFloat_digits (s : List Char) (h1 : s ≠ [])
    (h2 : s.all Char.isDigit = true) :
    pyFloat s = some (digitsToNat s : ℚ) := by
  cases s with
  | nil => exact absurd rfl h1
  | cons c rest =>
      have hc : Char.isDigit c = true := by
        simp [List.all_cons] at h2
        exact h2.1
      have hplus : ¬ (c = '+') := by
        rintro rfl
        exact absurd hc (by decide)
      have hminus : ¬ (c = '-') := by
        rintro rfl
        exact absurd hc (by decide)
      simp only [pyFloat, if_neg hplus, if_neg hminus]
      exact decimalCore_digits _ h1 h2

theorem getNumber_digits (s : List Char) (factor : ℚ) (h5 : s.length ≤ 5)
    (h1 : s ≠ []) (h2 : s.all Char.isDigit = true) :
    getNumber s factor = some ((digitsToNat s : ℚ) / factor) := by
  have ht : takeLast5 s = s := by
    simp [takeLast5, Nat.sub_eq_zero_of_le h5]
  simp [getNumber, ht, pyFloat_digits s h1 h2]

theorem processLine_eq (b : Buffers) (ct : ℚ) (line : List Char) (T P : ℚ)
    (hT : getNumber (line.dropLast.take 5) 100 = some T)
    (hP : getNumber (line.dropLast.drop 5) 100 = some P) :
    processLine b ct line =
      some ⟨dequeAppend 600 b.times ct, dequeAppend 600 b.temperatures T,
            dequeAppend 600 b.powers (if P > 100 then 0 else P)⟩ := by
  simp [processLine, hT, hP]

theorem processLine_none (b : Buffers) (ct : ℚ) (line : List Char)
    (hT : getNumber (line.dropLast.take 5) 100 = none) :
    processLine b ct line = none := by
  simp [processLine, hT]

theorem processLine_none' (b : Buffers) (ct : ℚ) (line : List Char) (T : ℚ)
    (hT : getNumber (line.dropLast.take 5) 100 = some T)
    (hP : getNumber (line.dropLast.drop 5) 100 = none) :
    processLine b ct line = none := by
  simp [processLine, hT, hP]

theorem getNumber_02050 : getNumber ("02050".toList) 100 = some ((41 : ℚ)/2) := by
  rw [getNumber_digits _ _ (by decide) (by decide) (by decide)]
  rw [show digitsToNat ("02050".toList) = 2050 from by decide]
  norm_num

theorem processLine_good (b : Buffers) (ct : ℚ) :
    processLine b ct ("0205000600\n".toList) =
      some ⟨dequeAppend 600 b.times ct, dequeAppend 600 b.temperatures (41/2),
            dequeAppend 600 b.powers 6⟩ := by
  have h1 : ("0205000600\n".toList).dropLast.take 5 = "02050".toList := by decide
  have h2 : ("0205000600\n".toList).dropLast.drop 5 = "00600".toList := by decide
  have g2 : getNumber ("00600".toList) 100 = some (6 : ℚ) := by
    rw [getNumber_digits _ _ (by decide) (by decide) (by decide)]
    rw [show digitsToNat ("00600".toList) = 600 from by decide]
    norm_num
  rw [processLine_eq b ct _ _ _ (by rw [h1]; exact getNumber_02050) (by rw [h2]; exact g2)]
  norm_num

theorem foldl_step_crashed (es : List Event) : ∀ (ep : ℕ) (b : Buffers),
    List.foldl step ⟨Phase.crashed, ep, b⟩ es = ⟨Phase.crashed, ep, b⟩ := by
  induction es with
  | nil => intro ep b; rfl
  | cons e es ih =>
      intro ep b
      rw [List.foldl_cons,
          show step ⟨Phase.crashed, ep, b⟩ e = ⟨Phase.crashed, ep, b⟩ from by cases e <;> rfl]
      exact ih ep b

theorem histUpd_step (st : LoopState) (e : Event) (hist : List Sample)
    (h : isMapped st.bufs hist) (hl : hist.length ≤ 600) :
    isMapped (step st e).bufs (histUpd st e hist) ∧ (histUpd st e hist).length ≤ 600 := by
  obtain ⟨ph, ep, b⟩ := st
  cases ph with
  | connecting => cases e <;> exact ⟨h, hl⟩
  | crashed => cases e <;> exact ⟨h, hl⟩
  | streaming start =>
      cases e with
      | openFail => exact ⟨h, hl⟩
      | openOk now => exact ⟨h, hl⟩
      | readFail => exact ⟨h, hl⟩
      | readOk now line =>
          rcases hg1 : getNumber (line.dropLast.take 5) 100 with _ | T
          · have hpl : processLine b (now - start) line = none :=
              processLine_none b (now - start) line hg1
            constructor
            · simp only [step, histUpd]
              rw [hpl, hg1]
              exact h
            · simp only [histUpd]
              rw [hg1]
              exact hl
          · rcases hg2 : getNumber (line.dropLast.drop 5) 100 with _ | P
            · have hpl : processLine b (now - start) line = none :=
                processLine_none' b (now - start) line T hg1 hg2
              constructor
              · simp only [step, histUpd]
                rw [hpl, hg1, hg2]
                exact h
              · simp only [histUpd]
                rw [hg1, hg2]
                exact hl
            · have hpl := processLine_eq b (now - start) line T P hg1 hg2
              constructor
              · simp only [step, histUpd]
                rw [hpl, hg1, hg2]
                obtain ⟨u1, u2, u3⟩ := h
                have v1 : b.times = List.map Sample.time hist := u1
                have v2 : b.temperatures = List.map Sample.temperature hist := u2
                have v3 : b.powers = List.map Sample.power hist := u3
                exact ⟨by simp [dequeAppend_map, v1], by simp [dequeAppend_map, v2],
                       by simp [dequeAppend_map, v3]⟩
              · simp only [histUpd]
                rw [hg1, hg2, dequeAppend_length]
                omega

theorem histFrom_spec (es : List Event) : ∀ (st : LoopState) (hist : List Sample),
    isMapped st.bufs hist → hist.length ≤ 600 →
    isMapped (List.foldl step st es).bufs (histFrom st es hist) ∧
      (histFrom st es hist).length ≤ 600 := by
  induction es with
  | nil => intro st hist h hl; exact ⟨h, hl⟩
  | cons e es ih =>
      intro st hist h hl
      obtain ⟨hm, hl2⟩ := histUpd_step st e hist h hl
      rw [List.foldl_cons,
          show histFrom st (e :: es) hist =
            histFrom (step st e) es (histUpd st e hist) from rfl]
      exact ih (step st e) (histUpd st e hist) hm hl2

/-- Claim C1: pushing n samples into a history deque of capacity 600 (the
maxlen fixed when the deque is constructed) leaves exactly the last
min(n, 600) pushed samples, in push order: the snapshot length is
min(n, 600), and the contents are the pushed sequence with its oldest
elements evicted first once capacity is reached (the drop of the first
n - 600 pushes; before capacity that drop is empty and the whole pushed
sequence is retained in order). -/
theorem claim_C1 (xs : List ℚ) :
    (List.foldl (dequeAppend 600) ([] : List ℚ) xs).length = min xs.length 600 ∧
    List.foldl (dequeAppend 600) ([] : List ℚ) xs = xs.drop (xs.length - 600) := by
  have h := foldl_dequeAppend 600 xs ([] : List ℚ) (by simp)
  simp only [List.nil_append, List.length_nil, Nat.zero_add] at h
  refine ⟨?_, h⟩
  rw [h, List.length_drop]
  omega

/-- Claim C2: decoding a combined-line record (the newline-stripped line,
here given as the 5-character temperature field t followed by the
5-character power field p) takes characters [0:5) as the temperature
field and characters [5:10) as the power field, parses each as a decimal
integer and divides each by 100. -/
theorem claim_C2 (t p : List Char) (ht : t.length = 5) (hp : p.length = 5)
    (hdt : t.all Char.isDigit = true) (hdp : p.all Char.isDigit = true) :
    getNumber ((t ++ p).take 5) 100 = some ((digitsToNat t : ℚ) / 100) ∧
    getNumber ((t ++ p).drop 5) 100 = some ((digitsToNat p : ℚ) / 100) := by
  have htake : (t ++ p).take 5 = t := List.take_left' ht
  have hdrop : (t ++ p).drop 5 = p := List.drop_left' ht
  have hne_t : t ≠ [] := by intro h0; rw [h0] at ht; simp at ht
  have hne_p : p ≠ [] := by intro h0; rw [h0] at hp; simp at hp
  rw [htake, hdrop, getNumber_digits t 100 (by omega) hne_t hdt,
      getNumber_digits p 100 (by omega) hne_p hdp]
  exact ⟨rfl, rfl⟩

/-- Witness for claim C2 at the record "02050"+"00600": the decoded
temperature is 41/2 = 20.50 and the decoded power is 6 = 6.00. -/
theorem claim_C2_witness :
    getNumber (("02050".toList ++ "00600".toList).take 5) 100 = some ((41 : ℚ)/2) ∧
    getNumber (("02050".toList ++ "00600".toList).drop 5) 100 = some (6 : ℚ) := by
  obtain ⟨h1, h2⟩ := claim_C2 ("02050".toList) ("00600".toList)
    (by decide) (by decide) (by decide) (by decide)
  rw [h1, h2, show digitsToNat ("02050".toList) = 2050 from by decide,
      show digitsToNat ("00600".toList) = 600 from by decide]
  norm_num

/-- Claim C3: when the decoded power of a line is strictly greater than
the plausibility ceiling 100, the sample appended to the history buffers
carries power 0 instead, while its elapsed-time and temperature entries
are appended unchanged; the sample is not dropped. -/
theorem claim_C3 (b : Buffers) (ct : ℚ) (line : List Char) (T P : ℚ)
    (hT : getNumber (line.dropLast.take 5) 100 = some T)
    (hP : getNumber (line.dropLast.drop 5) 100 = some P)
    (hgt : P > 100) :
    processLine b ct line =
      some ⟨dequeAppend 600 b.times ct, dequeAppend 600 b.temperatures T,
            dequeAppend 600 b.powers 0⟩ := by
  rw [processLine_eq b ct line T P hT hP, if_pos hgt]

/-- Witness for claim C3: the record "02050"+"15000" decodes to power 150,
which exceeds 100, so the pushed sample has power 0 while temperature
20.50 and the elapsed time are pushed unchanged. -/
theorem claim_C3_witness :
    processLine emptyBuffers 3 ("0205015000\n".toList) =
      some ⟨[3], [41/2], [0]⟩ := by
  have h1 : ("0205015000\n".toList).dropLast.take 5 = "02050".toList := by decide
  have h2 : ("0205015000\n".toList).dropLast.drop 5 = "15000".toList := by decide
  have g2 : getNumber ("15000".toList) 100 = some (150 : ℚ) := by
    rw [getNumber_digits _ _ (by decide) (by decide) (by decide),
        show digitsToNat ("15000".toList) = 15000 from by decide]
    norm_num
  rw [claim_C3 emptyBuffers 3 _ (41/2) 150 (by rw [h1]; exact getNumber_02050)
      (by rw [h2]; exact g2) (by norm_num)]
  norm_num [dequeAppend, emptyBuffers]

/-- Claim C4 as amended: a malformed record (numeric parse failure on a
field) leaves the history buffers unchanged by that call, but contrary to
the claim the ValueError from float() is NOT caught — the statements
following readline are outside both try blocks — so the exception
propagates out of acquire, the acquisition loop dies, and no later event
is ever processed (ingestion stops instead of continuing with the next
line). -/
theorem claim_C4 (start now : ℚ) (ep : ℕ) (b : Buffers) (line : List Char)
    (es : List Event)
    (h : processLine b (now - start) line = none) :
    List.foldl step ⟨Phase.streaming start, ep, b⟩ (Event.readOk now line :: es) =
      ⟨Phase.crashed, ep, b⟩ := by
  rw [List.foldl_cons]
  have hcr : step ⟨Phase.streaming start, ep, b⟩ (Event.readOk now line) =
      ⟨Phase.crashed, ep, b⟩ := by
    simp only [step]
    rw [h]
  rw [hcr]
  exact foldl_step_crashed es ep b

/-- Witness for the amended claim C4: the non-numeric line
"ABCDEXYZWW" fails to parse, the buffers stay empty, the loop reaches
the crashed state, and the following well-formed line is not ingested. -/
theorem claim_C4_witness :
    processLine emptyBuffers ((1 : ℚ) - 0) ("ABCDEXYZWW\n".toList) = none ∧
    List.foldl step ⟨Phase.streaming 0, 1, emptyBuffers⟩
      [Event.readOk 1 ("ABCDEXYZWW\n".toList), Event.readOk 2 ("0205000600\n".toList)] =
      ⟨Phase.crashed, 1, emptyBuffers⟩ := by
  have h : processLine emptyBuffers ((1 : ℚ) - 0) ("ABCDEXYZWW\n".toList) = none := by
    apply processLine_none
    decide
  exact ⟨h, claim_C4 0 1 1 emptyBuffers ("ABCDEXYZWW\n".toList) _ h⟩

/-- Counterexample to claim C4 as stated: after the malformed record
"ABCDEXYZWW" the float() ValueError escapes the read loop (no enclosing
try covers the decode statements), the loop state is crashed, and the
next, well-formed line "0205000600" is NOT ingested — the buffers stay
empty instead of the pipeline continuing with the next line. -/
theorem claim_C4_counterexample :
    (run [Event.openOk 0, Event.readOk 1 ("ABCDEXYZWW\n".toList),
          Event.readOk 2 ("0205000600\n".toList)]).phase = Phase.crashed ∧
    (run [Event.openOk 0, Event.readOk 1 ("ABCDEXYZWW\n".toList),
          Event.readOk 2 ("0205000600\n".toList)]).bufs = emptyBuffers := by
  have h : processLine emptyBuffers ((1 : ℚ) - 0) ("ABCDEXYZWW\n".toList) = none := by
    apply processLine_none
    decide
  have s2 : step ⟨Phase.streaming 0, 1, emptyBuffers⟩
      (Event.readOk 1 ("ABCDEXYZWW\n".toList)) = ⟨Phase.crashed, 1, emptyBuffers⟩ := by
    simp only [step]
    rw [h]
  have hr : run [Event.openOk 0, Event.readOk 1 ("ABCDEXYZWW\n".toList),
      Event.readOk 2 ("0205000600\n".toList)] = ⟨Phase.crashed, 1, emptyBuffers⟩ := by
    simp only [run, List.foldl]
    rw [show step initState (Event.openOk 0) = ⟨Phase.streaming 0, 1, emptyBuffers⟩ from rfl,
        s2,
        show step ⟨Phase.crashed, 1, emptyBuffers⟩
          (Event.readOk 2 ("0205000600\n".toList)) = ⟨Phase.crashed, 1, emptyBuffers⟩ from rfl]
  rw [hr]
  exact ⟨rfl, rfl⟩

/-- Claim C5 as amended: after a readline failure (LinkBroken) the code
retries the read on the SAME connection — the except branch of the inner
loop continues the inner loop, so serial.Serial is never re-invoked, no
reopen happens, the elapsed-time origin keeps its original value and the
connection-epoch count of successful opens is unchanged; the next
successfully decoded sample gets elapsed time now - start measured from
the ORIGINAL open, not from a reset origin. -/
theorem claim_C5 (start now : ℚ) (ep : ℕ) (b b' : Buffers) (line : List Char)
    (h : processLine b (now - start) line = some b') :
    List.foldl step ⟨Phase.streaming start, ep, b⟩
      [Event.readFail, Event.readOk now line] = ⟨Phase.streaming start, ep, b'⟩ := by
  simp only [List.foldl]
  rw [show step ⟨Phase.streaming start, ep, b⟩ Event.readFail =
      ⟨Phase.streaming start, ep, b⟩ from rfl]
  simp only [step]
  rw [h]

/-- Witness for the amended claim C5: a read failure followed by a good
line at time 25 within the epoch that opened at time 0 appends elapsed
time 25 - 0, with phase and epoch untouched. -/
theorem claim_C5_witness :
    processLine emptyBuffers ((25 : ℚ) - 0) ("0205000600\n".toList) =
      some ⟨[25], [41/2], [6]⟩ ∧
    List.foldl step ⟨Phase.streaming 0, 1, emptyBuffers⟩
      [Event.readFail, Event.readOk 25 ("0205000600\n".toList)] =
      ⟨Phase.streaming 0, 1, ⟨[25], [41/2], [6]⟩⟩ := by
  have h : processLine emptyBuffers ((25 : ℚ) - 0) ("0205000600\n".toList) =
      some ⟨[25], [41/2], [6]⟩ := by
    rw [processLine_good]
    norm_num [dequeAppend, emptyBuffers]
  exact ⟨h, claim_C5 0 25 1 emptyBuffers _ _ h⟩

/-- Counterexample to claim C5 as stated: open at time 0 (epoch becomes
1), decode a sample at time 10 (elapsed 10), suffer a read failure, and
even if the port could be reopened successfully at time 20 the code
never reaches the open call (the inner except retries readline), so the
next sample decoded at time 25 has elapsed time 25 — NOT less than the
elapsed time 10 of the last sample before the break — and the epoch is
still 1, not incremented. -/
theorem claim_C5_counterexample :
    run [Event.openOk 0, Event.readOk 10 ("0205000600\n".toList), Event.readFail,
         Event.openOk 20, Event.readOk 25 ("0205000600\n".toList)] =
      ⟨Phase.streaming 0, 1, ⟨[10, 25], [41/2, 41/2], [6, 6]⟩⟩ ∧
    ¬ ((25 : ℚ) < 10) := by
  refine ⟨?_, by norm_num⟩
  have p1 : processLine emptyBuffers ((10 : ℚ) - 0) ("0205000600\n".toList) =
      some ⟨[10], [41/2], [6]⟩ := by
    rw [processLine_good]
    norm_num [dequeAppend, emptyBuffers]
  have p2 : processLine ⟨[10], [41/2], [6]⟩ ((25 : ℚ) - 0) ("0205000600\n".toList) =
      some ⟨[10, 25], [41/2, 41/2], [6, 6]⟩ := by
    rw [processLine_good]
    norm_num [dequeAppend]
  have s2 : step ⟨Phase.streaming 0, 1, emptyBuffers⟩
      (Event.readOk 10 ("0205000600\n".toList)) =
      ⟨Phase.streaming 0, 1, ⟨[10], [41/2], [6]⟩⟩ := by
    simp only [step]
    rw [p1]
  have s5 : step ⟨Phase.streaming 0, 1, ⟨[10], [41/2], [6]⟩⟩
      (Event.readOk 25 ("0205000600\n".toList)) =
      ⟨Phase.streaming 0, 1, ⟨[10, 25], [41/2, 41/2], [6, 6]⟩⟩ := by
    simp only [step]
    rw [p2]
  simp only [run, List.foldl]
  rw [show step initState (Event.openOk 0) = ⟨Phase.streaming 0, 1, emptyBuffers⟩ from rfl,
      s2,
      show step ⟨Phase.streaming 0, 1, ⟨[10], [41/2], [6]⟩⟩ Event.readFail =
        ⟨Phase.streaming 0, 1, ⟨[10], [41/2], [6]⟩⟩ from rfl,
      show step ⟨Phase.streaming 0, 1, ⟨[10], [41/2], [6]⟩⟩ (Event.openOk 20) =
        ⟨Phase.streaming 0, 1, ⟨[10], [41/2], [6]⟩⟩ from rfl]
  exact s5

/-- Claim C6: decoding a well-formed legacy record takes its trailing 5
characters as a decimal integer and divides by the tag-specific scale:
"C02055" at scale 100 gives 411/20 = 20.55, and "A01000" at scale 1000
gives 1 = 1.0. -/
theorem claim_C6 :
    getNumber ("C02055".toList) 100 = some ((411 : ℚ)/20) ∧
    getNumber ("A01000".toList) 1000 = some (1 : ℚ) := by
  have h1 : takeLast5 ("C02055".toList) = "02055".toList := by decide
  have h2 : takeLast5 ("A01000".toList) = "01000".toList := by decide
  constructor
  · show (pyFloat (takeLast5 ("C02055".toList))).map (fun q => q / 100) = _
    rw [h1, pyFloat_digits _ (by decide) (by decide),
        show digitsToNat ("02055".toList) = 2055 from by decide]
    norm_num
  · show (pyFloat (takeLast5 ("A01000".toList))).map (fun q => q / 1000) = _
    rw [h2, pyFloat_digits _ (by decide) (by decide),
        show digitsToNat ("01000".toList) = 1000 from by decide]
    norm_num

/-- Claim C7: while no port has been opened, an open failure sends the
loop straight back to another open attempt with nothing else in between:
any number of consecutive open failures leaves the loop state completely
unchanged (still connecting, buffers and epoch untouched, never fatal),
and a subsequent successful open moves it to streaming with the new time
origin, incrementing the epoch. -/
theorem claim_C7 (n : ℕ) (ep : ℕ) (b : Buffers) (t : ℚ) :
    List.foldl step ⟨Phase.connecting, ep, b⟩ (List.replicate n Event.openFail) =
      ⟨Phase.connecting, ep, b⟩ ∧
    step ⟨Phase.connecting, ep, b⟩ (Event.openOk t) = ⟨Phase.streaming t, ep + 1, b⟩ := by
  refine ⟨?_, rfl⟩
  induction n with
  | zero => rfl
  | succ n ih =>
      rw [List.replicate_succ, List.foldl_cons,
          show step ⟨Phase.connecting, ep, b⟩ Event.openFail =
            ⟨Phase.connecting, ep, b⟩ from rfl]
      exact ih

/-- Claim C8: along every trace of the acquisition loop — and all push
and snapshot operations of the program execute on this single
acquisition thread, in this order, so these traces are exactly the
interleavings the program can produce — the buffer contents handed to
the renderer are the componentwise projections of histOf es, the list of
the samples actually pushed, each sample packaging the elapsed time,
temperature and clamped power decoded from one single line: entry i of
every buffer carries the fields of push i and of no other push (no torn
sample), and the snapshot length, the length of histOf es, never exceeds
the capacity 600. -/
theorem claim_C8 (es : List Event) :
    (histOf es).length ≤ 600 ∧ isMapped (run es).bufs (histOf es) := by
  obtain ⟨hm, hl⟩ := histFrom_spec es initState [] ⟨rfl, rfl, rfl⟩ (by simp)
  exact ⟨hl, hm⟩

/-- Claim C9: the plausibility clamp uses a strict comparison — a decoded
power exactly equal to the ceiling 100 is appended to the history
unchanged, not replaced by 0. -/
theorem claim_C9 (b : Buffers) (ct : ℚ) (line : List Char) (T : ℚ)
    (hT : getNumber (line.dropLast.take 5) 100 = some T)
    (hP : getNumber (line.dropLast.drop 5) 100 = some 100) :
    processLine b ct line =
      some ⟨dequeAppend 600 b.times ct, dequeAppend 600 b.temperatures T,
            dequeAppend 600 b.powers 100⟩ := by
  rw [processLine_eq b ct line T 100 hT hP, if_neg (by norm_num)]

/-- Witness for claim C9: the record "02050"+"10000" decodes to power
exactly 100, which is pushed unchanged. -/
theorem claim_C9_witness :
    processLine emptyBuffers 4 ("0205010000\n".toList) =
      some ⟨[4], [41/2], [100]⟩ := by
  have h1 : ("0205010000\n".toList).dropLast.take 5 = "02050".toList := by decide
  have h2 : ("0205010000\n".toList).dropLast.drop 5 = "10000".toList := by decide
  have g2 : getNumber ("10000".toList) 100 = some (100 : ℚ) := by
    rw [getNumber_digits _ _ (by decide) (by decide) (by decide),
        show digitsToNat ("10000".toList) = 10000 from by decide]
    norm_num
  rw [claim_C9 emptyBuffers 4 _ (41/2) (by rw [h1]; exact getNumber_02050)
      (by rw [h2]; exact g2)]
  norm_num [dequeAppend, emptyBuffers]

/-- Claim C10: the three history deques stay in lockstep along every trace
of the acquisition loop: each successfully decoded line appends exactly
one element to each of them, so after every completed iteration the
three buffers have equal length, each at most 600. -/
theorem claim_C10 (es : List Event) :
    (run es).bufs.times.length = (run es).bufs.temperatures.length ∧
    (run es).bufs.temperatures.length = (run es).bufs.powers.length ∧
    (run es).bufs.times.length ≤ 600 := by
  obtain ⟨hm, hl⟩ := histFrom_spec es initState [] ⟨rfl, rfl, rfl⟩ (by simp)
  obtain ⟨u1, u2, u3⟩ := hm
  have v1 : (run es).bufs.times = List.map Sample.time (histOf es) := u1
  have v2 : (run es).bufs.temperatures = List.map Sample.temperature (histOf es) := u2
  have v3 : (run es).bufs.powers = List.map Sample.power (histOf es) := u3
  have hl' : (histOf es).length ≤ 600 := hl
  rw [v1, v2, v3]
  simp [hl']

end Loeti
